import Mathlib

/-!
Verification of the incremental-refresh subsystem of the
Skolinspektionen open-data mirror: the delta-calculation policy
(`src/services/delta.py`), the retry wrapper with exponential backoff and
circuit breaker (`src/services/retry.py`), the token-bucket rate limiter
(`src/services/rate_limiter.py`), and the refresh orchestrator
(`src/services/refresher.py`).

The Python functions are embedded shallowly: machine floats used for
delays, token balances and monotonic clock readings are modelled as exact
rationals; the one place where a float *rounding* is observable — the
delta policy's escalation test against `online_count * 0.7` — is modelled
by an explicit IEEE-754 binary64 round-to-nearest-even function.  Python
exceptions become explicit outcome constructors, and the mutable
`CircuitBreaker` / `TokenBucket` objects become explicit state passing.
-/

namespace SkolData

set_option maxRecDepth 8000

/-! ## Delta calculation (`src/services/delta.py`) -/

/-- Bit length of a natural number (`0` for `0`), by repeated halving
with explicit fuel (structural recursion, so that proofs can evaluate
it); fuel 1200 exceeds the bit length of any magnitude arising here. -/
def bitLenFuel : Nat → Nat → Nat
  | 0, _ => 0
  | fuel + 1, a => if a = 0 then 0 else bitLenFuel fuel (a / 2) + 1

/-- Round a nonnegative integer to 53 significant bits (round-to-nearest,
ties-to-even) — the mantissa rounding of IEEE-754 binary64.  `a` stands
for a dyadic rational `a * 2^(-k)` for some fixed scale `k`; the result
is the numerator of the nearest binary64 value at the same scale.
Values of 53 bits or fewer (`a < 2^53`) are exactly representable and
returned unchanged; otherwise the `bitLen - 53` low bits are rounded
away, ties going to the even 53-bit mantissa. -/
def roundMantissa53 (a : Nat) : Nat :=
  if a < 2 ^ 53 then a
  else
    let shift := bitLenFuel 1200 a - 53
    let hi := a / 2 ^ shift
    let lo := a % 2 ^ shift
    let half := 2 ^ (shift - 1)
    if lo < half then hi * 2 ^ shift
    else if half < lo then (hi + 1) * 2 ^ shift
    else if hi % 2 = 0 then hi * 2 ^ shift
    else (hi + 1) * 2 ^ shift

/-- The double `online_count * 0.7` as CPython evaluates it, scaled by
`2^52` into an exact integer: the `int` is converted to binary64
(rounded to 53 significant bits once its magnitude reaches `2^53`),
multiplied by the binary64 value of the literal `0.7` — the dyadic
rational `3152519739159347 * 2^(-52)`, slightly below `7/10` — and the
product is rounded to binary64 again.  The result `r` stands for the
double `r * 2^(-52)`; rounding is sign-symmetric.  (Magnitudes at or
beyond `2^1024`, where CPython raises `OverflowError` instead of
producing a float, are not modelled.) -/
def timesFloat07Scaled (online_count : ℤ) : ℤ :=
  let m : Nat := roundMantissa53 online_count.natAbs
  let p : Nat := roundMantissa53 (m * 3152519739159347)
  if online_count < 0 then -(p : ℤ) else (p : ℤ)

/-- Result of delta calculation (`DeltaResult` dataclass). -/
structure DeltaResult where
  items_to_fetch : Int
  reason : String
  is_full_scrape : Bool
  new_items_estimate : Int
  days_since_update : Int
deriving Repr, DecidableEq

/-- `calculate_items_to_fetch` from `src/services/delta.py`.  Python's
default arguments `buffer=10`, `daily_factor=2` are passed explicitly at
call sites.  The source's escalation test
`items_to_fetch > online_count * 0.7` compares the `int` exactly against
the double `float(online_count) * 0.7`; with that double expressed as
the exact integer `timesFloat07Scaled online_count` over the scale
`2^52 = 4503599627370496`, the comparison becomes the exact integer
comparison `items_to_fetch * 2^52 > timesFloat07Scaled online_count`
(e.g. `90 * 0.7 == 62.99999999999999 < 63`, while `105 * 0.7 == 73.5`). -/
def calculate_items_to_fetch (online_count saved_count days_since_update buffer daily_factor : Int) : DeltaResult :=
  let count_diff := online_count - saved_count
  if count_diff < 0 then
    { items_to_fetch := online_count
      reason := "items removed from source"
      is_full_scrape := true
      new_items_estimate := 0
      days_since_update := days_since_update }
  else if days_since_update > 30 then
    { items_to_fetch := online_count
      reason := "stale data (" ++ toString days_since_update ++ " days)"
      is_full_scrape := true
      new_items_estimate := count_diff
      days_since_update := days_since_update }
  else if saved_count = 0 then
    { items_to_fetch := online_count
      reason := "initial scrape"
      is_full_scrape := true
      new_items_estimate := online_count
      days_since_update := days_since_update }
  else
    let items_to_fetch := |count_diff| + buffer + daily_factor * days_since_update
    let items_to_fetch := min items_to_fetch online_count
    if items_to_fetch * 4503599627370496 > timesFloat07Scaled online_count then
      { items_to_fetch := online_count
        reason := "incremental would fetch >70%"
        is_full_scrape := true
        new_items_estimate := count_diff
        days_since_update := days_since_update }
    else
      { items_to_fetch := items_to_fetch
        reason := "+" ++ toString count_diff ++ " new, " ++ toString days_since_update ++ "d stale"
        is_full_scrape := false
        new_items_estimate := count_diff
        days_since_update := days_since_update }

/-- C1 (amended): `calculate_items_to_fetch` evaluates its policy in the
fixed order (removed items, staleness beyond 30 days, empty index,
min-clamped incremental estimate), with the 70% escalation test
performed — as the source does — against the double-precision product
`float(online_count) * 0.7`, which sits slightly below exact
`0.7 * online_count` for most counts; the two literal scenarios from the
spec hold: `(105,100,2)` gives an incremental result fetching 19 with 5
new, and `(100,100,35)` escalates to a full scrape. -/
theorem calculate_items_to_fetch_policy (oc sc d : Int)
    (hoc : 0 ≤ oc) (hsc : 0 ≤ sc) (hd : 0 ≤ d) :
    (oc < sc → calculate_items_to_fetch oc sc d 10 2 =
      { items_to_fetch := oc, reason := "items removed from source",
        is_full_scrape := true, new_items_estimate := 0, days_since_update := d }) ∧
    (sc ≤ oc → 30 < d →
      (calculate_items_to_fetch oc sc d 10 2).is_full_scrape = true ∧
      (calculate_items_to_fetch oc sc d 10 2).items_to_fetch = oc) ∧
    (sc ≤ oc → d ≤ 30 → sc = 0 →
      (calculate_items_to_fetch oc sc d 10 2).is_full_scrape = true ∧
      (calculate_items_to_fetch oc sc d 10 2).items_to_fetch = oc) ∧
    (sc ≤ oc → d ≤ 30 → sc ≠ 0 →
      ((min oc (|oc - sc| + 10 + 2 * d) * 4503599627370496 >
          timesFloat07Scaled oc →
        (calculate_items_to_fetch oc sc d 10 2).is_full_scrape = true ∧
        (calculate_items_to_fetch oc sc d 10 2).items_to_fetch = oc) ∧
       (¬ (min oc (|oc - sc| + 10 + 2 * d) * 4503599627370496 >
          timesFloat07Scaled oc) →
        (calculate_items_to_fetch oc sc d 10 2).is_full_scrape = false ∧
        (calculate_items_to_fetch oc sc d 10 2).items_to_fetch = min oc (|oc - sc| + 10 + 2 * d) ∧
        (calculate_items_to_fetch oc sc d 10 2).new_items_estimate = oc - sc))) ∧
    ((calculate_items_to_fetch 105 100 2 10 2).is_full_scrape = false ∧
     (calculate_items_to_fetch 105 100 2 10 2).items_to_fetch = 19 ∧
     (calculate_items_to_fetch 105 100 2 10 2).new_items_estimate = 5) ∧
    (calculate_items_to_fetch 100 100 35 10 2).is_full_scrape = true := by
  refine ⟨?_, ?_, ?_, ?_, by decide, by decide⟩
  · intro h
    dsimp only [calculate_items_to_fetch]
    rw [if_pos (by omega)]
  · intro h1 h2
    dsimp only [calculate_items_to_fetch]
    rw [if_neg (by omega), if_pos (by omega)]
    exact ⟨rfl, rfl⟩
  · intro h1 h2 h3
    dsimp only [calculate_items_to_fetch]
    rw [if_neg (by omega), if_neg (by omega), if_pos h3]
    exact ⟨rfl, rfl⟩
  · intro h1 h2 h3
    dsimp only [calculate_items_to_fetch]
    rw [if_neg (by omega), if_neg (by omega), if_neg h3]
    rw [min_comm (|oc - sc| + 10 + 2 * d) oc]
    constructor
    · intro hgt
      rw [if_pos hgt]
      exact ⟨rfl, rfl⟩
    · intro hle
      rw [if_neg hle]
      exact ⟨rfl, rfl, rfl⟩

/-- Witness for `calculate_items_to_fetch_policy` at concrete inputs. -/
theorem calculate_items_to_fetch_policy_check :
    (calculate_items_to_fetch 90 100 1 10 2 =
      { items_to_fetch := 90, reason := "items removed from source",
        is_full_scrape := true, new_items_estimate := 0, days_since_update := 1 }) ∧
    (calculate_items_to_fetch 105 100 2 10 2).items_to_fetch = 19 :=
  ⟨(calculate_items_to_fetch_policy 90 100 1 (by decide) (by decide) (by decide)).1 (by decide),
   ((calculate_items_to_fetch_policy 90 100 1 (by decide) (by decide) (by decide)).2.2.2.2.1).2.1⟩

/-- C1 counterexample to the exact-`0.7` reading of the escalation test:
at `(online_count = 90, saved_count = 37, days_since_update = 0)` the
proposed fetch is `n = min(90, 53+10+0) = 63`, which does *not* exceed
exact `0.7 * 90 = 63` — so the claim as stated predicts an incremental
result fetching 63 — yet the code full-scrapes with
`items_to_fetch = 90`, because CPython computes
`90 * 0.7 == 62.99999999999999 < 63`. -/
theorem calculate_items_to_fetch_float_escalation :
    (calculate_items_to_fetch 90 37 0 10 2).is_full_scrape = true ∧
    (calculate_items_to_fetch 90 37 0 10 2).items_to_fetch = 90 ∧
    ¬ (10 * min (90 : ℤ) (|(90 : ℤ) - 37| + 10 + 2 * 0) > 7 * 90) := by
  decide

/-- C10: in every branch of `calculate_items_to_fetch` (nonnegative
inputs), the recommended fetch count satisfies
`0 ≤ items_to_fetch ≤ online_count`, and every full-scrape branch
(including the 70% escalation) returns exactly `online_count`. -/
theorem calculate_items_to_fetch_bounds (oc sc d buffer df : Int)
    (hoc : 0 ≤ oc) (hsc : 0 ≤ sc) (hd : 0 ≤ d) (hb : 0 ≤ buffer) (hdf : 0 ≤ df) :
    0 ≤ (calculate_items_to_fetch oc sc d buffer df).items_to_fetch ∧
    (calculate_items_to_fetch oc sc d buffer df).items_to_fetch ≤ oc ∧
    ((calculate_items_to_fetch oc sc d buffer df).is_full_scrape = true →
      (calculate_items_to_fetch oc sc d buffer df).items_to_fetch = oc) := by
  have habs : 0 ≤ |oc - sc| := abs_nonneg (oc - sc)
  have hmul : 0 ≤ df * d := mul_nonneg hdf hd
  dsimp only [calculate_items_to_fetch]
  split_ifs with h1 h2 h3 h4
  · exact ⟨hoc, le_refl oc, fun _ => rfl⟩
  · exact ⟨hoc, le_refl oc, fun _ => rfl⟩
  · exact ⟨hoc, le_refl oc, fun _ => rfl⟩
  · exact ⟨hoc, le_refl oc, fun _ => rfl⟩
  · refine ⟨le_min (add_nonneg (add_nonneg habs hb) hmul) hoc, min_le_right _ _, ?_⟩
    intro hfalse
    simp at hfalse

/-- Witness for `calculate_items_to_fetch_bounds` at a concrete input. -/
theorem calculate_items_to_fetch_bounds_check :
    0 ≤ (calculate_items_to_fetch 105 100 2 10 2).items_to_fetch ∧
    (calculate_items_to_fetch 105 100 2 10 2).items_to_fetch ≤ 105 ∧
    ((calculate_items_to_fetch 105 100 2 10 2).is_full_scrape = true →
      (calculate_items_to_fetch 105 100 2 10 2).items_to_fetch = 105) :=
  calculate_items_to_fetch_bounds 105 100 2 10 2 (by decide) (by decide) (by decide)
    (by decide) (by decide)

/-! ## Retry configuration and backoff delay (`src/services/retry.py`) -/

/-- `RETRYABLE_STATUS_CODES` from `src/services/retry.py`. -/
def RETRYABLE_STATUS_CODES : List Nat := [408, 429, 500, 502, 503, 504]

/-- `RetryConfig` dataclass.  Float-valued fields are modelled as exact
rationals. -/
structure RetryConfig where
  max_attempts : Nat
  initial_delay : ℚ
  backoff_factor : ℚ
  max_delay : ℚ
  jitter : Bool
  retryable_status_codes : List Nat
deriving Repr, DecidableEq

/-- The dataclass field defaults of `RetryConfig`. -/
def RetryConfig.default : RetryConfig :=
  { max_attempts := 3, initial_delay := 1, backoff_factor := 2, max_delay := 60,
    jitter := true, retryable_status_codes := RETRYABLE_STATUS_CODES }

/-- `calculate_delay` from `src/services/retry.py`.  The call
`random.uniform(-jitter_range, jitter_range)` is modelled by the extra
argument `jitter_draw`, the value drawn when jitter is enabled (the
caller guarantees `|jitter_draw| ≤ delay * (1/4)`); it is ignored when
`config.jitter` is false. -/
def calculate_delay (attempt : Nat) (config : RetryConfig) (jitter_draw : ℚ) : ℚ :=
  let delay := config.initial_delay * config.backoff_factor ^ attempt
  let delay := min delay config.max_delay
  let delay := if config.jitter then delay + jitter_draw else delay
  max 0 delay

/-- C8 counterexample: the claim quantifies over *every* `RetryConfig`
with `jitter = False`, but with `backoff_factor = 1/2` the delay strictly
decreases from attempt 0 to attempt 1, and with `max_delay = -1` the
returned delay `0` exceeds `max_delay`. -/
theorem calculate_delay_not_monotone_for_all_configs :
    (calculate_delay 1
        { max_attempts := 3, initial_delay := 1, backoff_factor := 1/2, max_delay := 60,
          jitter := false, retryable_status_codes := RETRYABLE_STATUS_CODES } 0 <
      calculate_delay 0
        { max_attempts := 3, initial_delay := 1, backoff_factor := 1/2, max_delay := 60,
          jitter := false, retryable_status_codes := RETRYABLE_STATUS_CODES } 0) ∧
    ((-1 : ℚ) <
      calculate_delay 0
        { max_attempts := 3, initial_delay := 1, backoff_factor := 2, max_delay := -1,
          jitter := false, retryable_status_codes := RETRYABLE_STATUS_CODES } 0) := by
  constructor
  · show (0 : ℚ) ⊔ ((1 * (1/2 : ℚ) ^ 1) ⊓ 60) < (0 : ℚ) ⊔ ((1 * (1/2 : ℚ) ^ 0) ⊓ 60)
    norm_num
  · show (-1 : ℚ) < (0 : ℚ) ⊔ ((1 * (2 : ℚ) ^ 0) ⊓ (-1))
    norm_num

/-- C8 (amended): for every `RetryConfig` with `jitter = false`,
`1 ≤ backoff_factor` and `0 ≤ max_delay`, `calculate_delay` is
non-decreasing in the attempt index and capped at `max_delay`. -/
theorem calculate_delay_monotone_capped (config : RetryConfig)
    (hj : config.jitter = false) (hb : 1 ≤ config.backoff_factor)
    (hM : 0 ≤ config.max_delay) (m n : Nat) (hmn : m ≤ n) (u v : ℚ) :
    calculate_delay m config u ≤ calculate_delay n config v ∧
    calculate_delay n config v ≤ config.max_delay := by
  dsimp only [calculate_delay]
  simp only [hj, Bool.false_eq_true, if_false]
  constructor
  · rcases le_or_lt config.initial_delay 0 with hi | hi
    · have h1 : config.initial_delay * config.backoff_factor ^ m ≤ 0 := by
        have : (0:ℚ) < config.backoff_factor ^ m :=
          pow_pos (lt_of_lt_of_le one_pos hb) m
        exact mul_nonpos_of_nonpos_of_nonneg hi (le_of_lt this)
      calc max 0 (min (config.initial_delay * config.backoff_factor ^ m) config.max_delay)
          ≤ max 0 (min (0:ℚ) config.max_delay) := by
            apply max_le_max (le_refl 0)
            exact min_le_min h1 (le_refl _)
        _ = 0 := by rw [min_eq_left hM]; simp
        _ ≤ max 0 (min (config.initial_delay * config.backoff_factor ^ n) config.max_delay) :=
            le_max_left 0 _
    · have h1 : config.initial_delay * config.backoff_factor ^ m ≤
          config.initial_delay * config.backoff_factor ^ n :=
        mul_le_mul_of_nonneg_left (pow_le_pow_right₀ hb hmn) (le_of_lt hi)
      exact max_le_max (le_refl 0) (min_le_min h1 (le_refl _))
  · exact max_le hM (min_le_right _ _)

/-- Witness for `calculate_delay_monotone_capped` at the default config
with jitter disabled. -/
theorem calculate_delay_monotone_capped_check :
    calculate_delay 0
        { max_attempts := 3, initial_delay := 1, backoff_factor := 2, max_delay := 60,
          jitter := false, retryable_status_codes := RETRYABLE_STATUS_CODES } 0 ≤
      calculate_delay 1
        { max_attempts := 3, initial_delay := 1, backoff_factor := 2, max_delay := 60,
          jitter := false, retryable_status_codes := RETRYABLE_STATUS_CODES } 0 ∧
    calculate_delay 1
        { max_attempts := 3, initial_delay := 1, backoff_factor := 2, max_delay := 60,
          jitter := false, retryable_status_codes := RETRYABLE_STATUS_CODES } 0 ≤ 60 :=
  calculate_delay_monotone_capped
    { max_attempts := 3, initial_delay := 1, backoff_factor := 2, max_delay := 60,
      jitter := false, retryable_status_codes := RETRYABLE_STATUS_CODES }
    rfl (by norm_num) (by norm_num) 0 1 (by norm_num) 0 0

/-! ## Circuit breaker (`src/services/retry.py`) -/

/-- `CircuitState` enum. -/
inductive CircuitState where
  | CLOSED
  | OPEN
  | HALF_OPEN
deriving Repr, DecidableEq

/-- `CircuitBreakerConfig` dataclass. -/
structure CircuitBreakerConfig where
  failure_threshold : Nat
  success_threshold : Nat
  timeout : ℚ
deriving Repr, DecidableEq

/-- The dataclass field defaults of `CircuitBreakerConfig`. -/
def CircuitBreakerConfig.default : CircuitBreakerConfig :=
  { failure_threshold := 5, success_threshold := 2, timeout := 60 }

/-- `CircuitBreaker` object state. -/
structure CircuitBreaker where
  config : CircuitBreakerConfig
  state : CircuitState
  failure_count : Nat
  success_count : Nat
  last_failure_time : Option ℚ
deriving Repr, DecidableEq

/-- `CircuitBreaker.__init__`. -/
def CircuitBreaker.init (config : CircuitBreakerConfig) : CircuitBreaker :=
  { config := config, state := .CLOSED, failure_count := 0, success_count := 0,
    last_failure_time := none }

/-- `CircuitBreaker.can_execute`, with `time.monotonic()` passed in as
`now`; returns the Python return value together with the updated breaker.
Python's truthiness test `if self.last_failure_time:` is false both for
`None` and for the float `0.0`, hence the `t ≠ 0` conjunct. -/
def CircuitBreaker.can_execute (b : CircuitBreaker) (now : ℚ) : Bool × CircuitBreaker :=
  match b.state with
  | .CLOSED => (true, b)
  | .OPEN =>
    match b.last_failure_time with
    | some t =>
      if t ≠ 0 ∧ b.config.timeout ≤ now - t then
        (true, { b with state := .HALF_OPEN, success_count := 0 })
      else
        (false, b)
    | none => (false, b)
  | .HALF_OPEN => (true, b)

/-- `CircuitBreaker.record_success`. -/
def CircuitBreaker.record_success (b : CircuitBreaker) : CircuitBreaker :=
  if b.state = .HALF_OPEN then
    let b1 := { b with success_count := b.success_count + 1 }
    if b1.config.success_threshold ≤ b1.success_count then
      { b1 with state := .CLOSED, failure_count := 0 }
    else b1
  else
    { b with failure_count := 0 }

/-- `CircuitBreaker.record_failure`, with `time.monotonic()` passed in as
`now`. -/
def CircuitBreaker.record_failure (b : CircuitBreaker) (now : ℚ) : CircuitBreaker :=
  let b1 := { b with failure_count := b.failure_count + 1, last_failure_time := some now }
  if b1.state = .HALF_OPEN then
    { b1 with state := .OPEN }
  else if b1.config.failure_threshold ≤ b1.failure_count then
    { b1 with state := .OPEN }
  else
    b1

/-- One call of the breaker's public interface. -/
inductive BreakerOp where
  | canExecute (now : ℚ)
  | recordSuccess
  | recordFailure (now : ℚ)
deriving Repr, DecidableEq

/-- Apply one interface call to the breaker state. -/
def CircuitBreaker.step (b : CircuitBreaker) : BreakerOp → CircuitBreaker
  | .canExecute now => (b.can_execute now).2
  | .recordSuccess => b.record_success
  | .recordFailure now => b.record_failure now

/-- Apply a sequence of interface calls. -/
def CircuitBreaker.run (b : CircuitBreaker) (ops : List BreakerOp) : CircuitBreaker :=
  ops.foldl CircuitBreaker.step b

/-- Number of `record_success` calls in a call sequence. -/
def countSuccessOps (ops : List BreakerOp) : Nat :=
  ops.countP (fun op => op == BreakerOp.recordSuccess)

theorem countSuccessOps_cons_success (ops : List BreakerOp) :
    countSuccessOps (.recordSuccess :: ops) = countSuccessOps ops + 1 := by
  simp [countSuccessOps, List.countP_cons]

theorem countSuccessOps_cons_can (now : ℚ) (ops : List BreakerOp) :
    countSuccessOps (.canExecute now :: ops) = countSuccessOps ops := by
  simp [countSuccessOps, List.countP_cons]

theorem countSuccessOps_cons_fail (now : ℚ) (ops : List BreakerOp) :
    countSuccessOps (.recordFailure now :: ops) = countSuccessOps ops := by
  simp [countSuccessOps, List.countP_cons]

/-- Reaching CLOSED from OPEN or HALF_OPEN requires enough
`record_success` calls: the success counter is reset to 0 whenever
HALF_OPEN is entered and only `record_success` increments it. -/
theorem CircuitBreaker.run_closed_success_count (ops : List BreakerOp) :
    ∀ b : CircuitBreaker, (b.run ops).state = .CLOSED →
      (b.state = .OPEN → b.config.success_threshold ≤ countSuccessOps ops) ∧
      (b.state = .HALF_OPEN →
        b.config.success_threshold ≤ b.success_count + countSuccessOps ops) := by
  induction ops with
  | nil =>
    intro b hrun
    refine ⟨fun hb => ?_, fun hb => ?_⟩
    · rw [CircuitBreaker.run, List.foldl_nil] at hrun
      rw [hb] at hrun
      cases hrun
    · rw [CircuitBreaker.run, List.foldl_nil] at hrun
      rw [hb] at hrun
      cases hrun
  | cons op rest ih =>
    intro b hrun
    have hrun' : ((b.step op).run rest).state = .CLOSED := hrun
    obtain ⟨cfg, st, fc, sc, lft⟩ := b
    refine ⟨fun hb => ?_, fun hb => ?_⟩
    · -- starting in OPEN
      cases hb
      cases op with
      | canExecute now =>
        rw [countSuccessOps_cons_can]
        cases lft with
        | none => exact (ih _ hrun').1 rfl
        | some t =>
          by_cases hcond : t ≠ 0 ∧ cfg.timeout ≤ now - t
          · have hstep : CircuitBreaker.step ⟨cfg, .OPEN, fc, sc, some t⟩ (.canExecute now) =
                ⟨cfg, .HALF_OPEN, fc, 0, some t⟩ := by
              dsimp only [CircuitBreaker.step, CircuitBreaker.can_execute]
              rw [if_pos hcond]
            rw [hstep] at hrun'
            simpa using (ih _ hrun').2 rfl
          · have hstep : CircuitBreaker.step ⟨cfg, .OPEN, fc, sc, some t⟩ (.canExecute now) =
                ⟨cfg, .OPEN, fc, sc, some t⟩ := by
              dsimp only [CircuitBreaker.step, CircuitBreaker.can_execute]
              rw [if_neg hcond]
            rw [hstep] at hrun'
            exact (ih _ hrun').1 rfl
      | recordSuccess =>
        rw [countSuccessOps_cons_success]
        have hstep : CircuitBreaker.step ⟨cfg, .OPEN, fc, sc, lft⟩ .recordSuccess =
            ⟨cfg, .OPEN, 0, sc, lft⟩ := by
          dsimp only [CircuitBreaker.step, CircuitBreaker.record_success]
          rw [if_neg (by simp)]
        rw [hstep] at hrun'
        have hts := (ih _ hrun').1 rfl
        dsimp only at hts ⊢
        omega
      | recordFailure now =>
        rw [countSuccessOps_cons_fail]
        have hstep : CircuitBreaker.step ⟨cfg, .OPEN, fc, sc, lft⟩ (.recordFailure now) =
            ⟨cfg, .OPEN, fc + 1, sc, some now⟩ := by
          dsimp only [CircuitBreaker.step, CircuitBreaker.record_failure]
          rw [if_neg (by simp)]
          split <;> rfl
        rw [hstep] at hrun'
        exact (ih _ hrun').1 rfl
    · -- starting in HALF_OPEN
      cases hb
      cases op with
      | canExecute now =>
        rw [countSuccessOps_cons_can]
        have hstep : CircuitBreaker.step ⟨cfg, .HALF_OPEN, fc, sc, lft⟩ (.canExecute now) =
            ⟨cfg, .HALF_OPEN, fc, sc, lft⟩ := rfl
        rw [hstep] at hrun'
        exact (ih _ hrun').2 rfl
      | recordSuccess =>
        rw [countSuccessOps_cons_success]
        by_cases hth : cfg.success_threshold ≤ sc + 1
        · dsimp only
          omega
        · have hstep : CircuitBreaker.step ⟨cfg, .HALF_OPEN, fc, sc, lft⟩ .recordSuccess =
              ⟨cfg, .HALF_OPEN, fc, sc + 1, lft⟩ := by
            dsimp only [CircuitBreaker.step, CircuitBreaker.record_success]
            rw [if_pos rfl, if_neg hth]
          rw [hstep] at hrun'
          have hts := (ih _ hrun').2 rfl
          dsimp only at hts ⊢
          omega
      | recordFailure now =>
        rw [countSuccessOps_cons_fail]
        have hstep : CircuitBreaker.step ⟨cfg, .HALF_OPEN, fc, sc, lft⟩ (.recordFailure now) =
            ⟨cfg, .OPEN, fc + 1, sc, some now⟩ := by
          dsimp only [CircuitBreaker.step, CircuitBreaker.record_failure]
          rw [if_pos rfl]
        rw [hstep] at hrun'
        have hts := (ih _ hrun').1 rfl
        dsimp only at hts ⊢
        omega

/-- C4: the breaker's transition invariants: OPEN leaves only to
HALF_OPEN, only via a `can_execute` call at least `timeout` seconds after
`last_failure_time`; HALF_OPEN reaches CLOSED only via a `record_success`
whose incremented counter reaches `success_threshold` (and, along any
call sequence, only after at least `success_threshold` minus the current
counter further `record_success` calls); and any `record_failure` in
HALF_OPEN returns to OPEN, re-stamping `last_failure_time`. -/
theorem circuit_breaker_transition_invariants (b : CircuitBreaker) (op : BreakerOp) :
    (b.state = .OPEN → (b.step op).state = .HALF_OPEN →
      ∃ now t, op = .canExecute now ∧ b.last_failure_time = some t ∧
        b.config.timeout ≤ now - t) ∧
    (b.state = .HALF_OPEN → (b.step op).state = .CLOSED →
      op = .recordSuccess ∧ b.config.success_threshold ≤ b.success_count + 1) ∧
    (∀ ops : List BreakerOp, b.state = .HALF_OPEN → (b.run ops).state = .CLOSED →
      b.config.success_threshold ≤ b.success_count + countSuccessOps ops) ∧
    (∀ now : ℚ, b.state = .HALF_OPEN →
      (b.step (.recordFailure now)).state = .OPEN ∧
      (b.step (.recordFailure now)).last_failure_time = some now) := by
  obtain ⟨cfg, st, fc, sc, lft⟩ := b
  refine ⟨?_, ?_, ?_, ?_⟩
  · intro hb hstep
    cases hb
    cases op with
    | canExecute now =>
      cases lft with
      | none => cases hstep
      | some t =>
        by_cases hcond : t ≠ 0 ∧ cfg.timeout ≤ now - t
        · exact ⟨now, t, rfl, rfl, hcond.2⟩
        · exfalso
          have : CircuitBreaker.step ⟨cfg, .OPEN, fc, sc, some t⟩ (.canExecute now) =
              ⟨cfg, .OPEN, fc, sc, some t⟩ := by
            dsimp only [CircuitBreaker.step, CircuitBreaker.can_execute]
            rw [if_neg hcond]
          rw [this] at hstep
          cases hstep
    | recordSuccess =>
      exfalso
      have : CircuitBreaker.step ⟨cfg, .OPEN, fc, sc, lft⟩ .recordSuccess =
          ⟨cfg, .OPEN, 0, sc, lft⟩ := by
        dsimp only [CircuitBreaker.step, CircuitBreaker.record_success]
        rw [if_neg (by simp)]
      rw [this] at hstep
      cases hstep
    | recordFailure now =>
      exfalso
      have : CircuitBreaker.step ⟨cfg, .OPEN, fc, sc, lft⟩ (.recordFailure now) =
          ⟨cfg, .OPEN, fc + 1, sc, some now⟩ := by
        dsimp only [CircuitBreaker.step, CircuitBreaker.record_failure]
        rw [if_neg (by simp)]
        split <;> rfl
      rw [this] at hstep
      cases hstep
  · intro hb hstep
    cases hb
    cases op with
    | canExecute now => cases hstep
    | recordSuccess =>
      refine ⟨rfl, ?_⟩
      by_cases hth : cfg.success_threshold ≤ sc + 1
      · exact hth
      · exfalso
        have : CircuitBreaker.step ⟨cfg, .HALF_OPEN, fc, sc, lft⟩ .recordSuccess =
            ⟨cfg, .HALF_OPEN, fc, sc + 1, lft⟩ := by
          dsimp only [CircuitBreaker.step, CircuitBreaker.record_success]
          rw [if_pos rfl, if_neg hth]
        rw [this] at hstep
        cases hstep
    | recordFailure now =>
      exfalso
      have : CircuitBreaker.step ⟨cfg, .HALF_OPEN, fc, sc, lft⟩ (.recordFailure now) =
          ⟨cfg, .OPEN, fc + 1, sc, some now⟩ := by
        dsimp only [CircuitBreaker.step, CircuitBreaker.record_failure]
        rw [if_pos rfl]
      rw [this] at hstep
      cases hstep
  · intro ops hb hrun
    cases hb
    exact (CircuitBreaker.run_closed_success_count ops _ hrun).2 rfl
  · intro now hb
    cases hb
    have : CircuitBreaker.step ⟨cfg, .HALF_OPEN, fc, sc, lft⟩ (.recordFailure now) =
        ⟨cfg, .OPEN, fc + 1, sc, some now⟩ := by
      dsimp only [CircuitBreaker.step, CircuitBreaker.record_failure]
      rw [if_pos rfl]
    rw [this]
    exact ⟨rfl, rfl⟩

/-- Witness for `circuit_breaker_transition_invariants`: an OPEN breaker
(`timeout = 60`, failure stamped at time 1) stepped with `can_execute` at
time 61 transitions to HALF_OPEN at an allowed time. -/
theorem circuit_breaker_transition_invariants_check :
    ∃ now t : ℚ, BreakerOp.canExecute 61 = BreakerOp.canExecute now ∧
      ({ config := ⟨5, 2, 60⟩, state := .OPEN, failure_count := 5, success_count := 0,
         last_failure_time := some 1 } : CircuitBreaker).last_failure_time = some t ∧
      ({ config := ⟨5, 2, 60⟩, state := .OPEN, failure_count := 5, success_count := 0,
         last_failure_time := some 1 } : CircuitBreaker).config.timeout ≤ now - t :=
  (circuit_breaker_transition_invariants
    { config := ⟨5, 2, 60⟩, state := .OPEN, failure_count := 5, success_count := 0,
      last_failure_time := some 1 } (.canExecute 61)).1 rfl (by
      dsimp only [CircuitBreaker.step, CircuitBreaker.can_execute]
      rw [if_pos ⟨by norm_num, by norm_num⟩])

/-- The breaker of the C5 scenario taken literally: `failure_threshold = 3`
and the dataclass defaults `success_threshold = 2`, `timeout = 60`. -/
def c5_breaker : CircuitBreaker :=
  CircuitBreaker.init { failure_threshold := 3, success_threshold := 2, timeout := 60 }

/-- C5 counterexample: with `failure_threshold = 3` and the *default*
`success_threshold = 2`, after three failures (OPEN), a timely
`can_execute` (HALF_OPEN), a *single* `record_success` leaves the breaker
HALF_OPEN — it does not close as the claim states. -/
theorem c5_single_success_does_not_close :
    ((((c5_breaker.record_failure 1).record_failure 2).record_failure 3).can_execute 63).1
        = true ∧
    (((((c5_breaker.record_failure 1).record_failure 2).record_failure 3).can_execute 63).2
        ).state = CircuitState.HALF_OPEN ∧
    ((((((c5_breaker.record_failure 1).record_failure 2).record_failure 3).can_execute 63).2
        ).record_success).state ≠ CircuitState.CLOSED := by
  have hb3 : ((c5_breaker.record_failure 1).record_failure 2).record_failure 3 =
      ⟨⟨3, 2, 60⟩, .OPEN, 3, 0, some 3⟩ := rfl
  rw [hb3]
  have hce : (⟨⟨3, 2, 60⟩, .OPEN, 3, 0, some 3⟩ : CircuitBreaker).can_execute 63 =
      (true, ⟨⟨3, 2, 60⟩, .HALF_OPEN, 3, 0, some 3⟩) := by
    dsimp only [CircuitBreaker.can_execute]
    rw [if_pos ⟨by norm_num, by norm_num⟩]
  rw [hce]
  exact ⟨rfl, rfl, by decide⟩

/-- C5 (amended): with `failure_threshold = 3` and `success_threshold = 1`
(the repository's own test fixture; the dataclass default is 2, under
which one success is not enough): three consecutive `record_failure`
calls move CLOSED to OPEN; once `timeout = 60` seconds have elapsed the
next `can_execute` returns true and moves to HALF_OPEN; a single
`record_success` then closes the breaker, while a single `record_failure`
instead re-opens it. -/
theorem circuit_breaker_threshold_cycle (t1 t2 t3 t4 t5 : ℚ)
    (ht3 : 0 < t3) (ht4 : t3 + 60 ≤ t4) :
    ((CircuitBreaker.init ⟨3, 1, 60⟩).record_failure t1).state = CircuitState.CLOSED ∧
    (((CircuitBreaker.init ⟨3, 1, 60⟩).record_failure t1).record_failure t2).state
        = CircuitState.CLOSED ∧
    ((((CircuitBreaker.init ⟨3, 1, 60⟩).record_failure t1).record_failure t2
        ).record_failure t3).state = CircuitState.OPEN ∧
    (((((CircuitBreaker.init ⟨3, 1, 60⟩).record_failure t1).record_failure t2
        ).record_failure t3).can_execute t4).1 = true ∧
    ((((((CircuitBreaker.init ⟨3, 1, 60⟩).record_failure t1).record_failure t2
        ).record_failure t3).can_execute t4).2).state = CircuitState.HALF_OPEN ∧
    (((((((CircuitBreaker.init ⟨3, 1, 60⟩).record_failure t1).record_failure t2
        ).record_failure t3).can_execute t4).2).record_success).state
        = CircuitState.CLOSED ∧
    (((((((CircuitBreaker.init ⟨3, 1, 60⟩).record_failure t1).record_failure t2
        ).record_failure t3).can_execute t4).2).record_failure t5).state
        = CircuitState.OPEN := by
  have h0 : t3 ≠ 0 := ne_of_gt ht3
  have h60 : (60 : ℚ) ≤ t4 - t3 := by linarith
  have hb3 : (((CircuitBreaker.init ⟨3, 1, 60⟩).record_failure t1).record_failure t2
      ).record_failure t3 = ⟨⟨3, 1, 60⟩, .OPEN, 3, 0, some t3⟩ := rfl
  rw [hb3]
  have hce : (⟨⟨3, 1, 60⟩, .OPEN, 3, 0, some t3⟩ : CircuitBreaker).can_execute t4 =
      (true, ⟨⟨3, 1, 60⟩, .HALF_OPEN, 3, 0, some t3⟩) := by
    dsimp only [CircuitBreaker.can_execute]
    rw [if_pos ⟨h0, h60⟩]
  rw [hce]
  exact ⟨rfl, rfl, rfl, rfl, rfl, rfl, rfl⟩

/-- Witness for `circuit_breaker_threshold_cycle` at concrete times. -/
theorem circuit_breaker_threshold_cycle_check :
    ((((((CircuitBreaker.init ⟨3, 1, 60⟩).record_failure 1).record_failure 2
        ).record_failure 3).can_execute 63).2).record_success.state
        = CircuitState.CLOSED :=
  (circuit_breaker_threshold_cycle 1 2 3 63 64 (by norm_num) (by norm_num)).2.2.2.2.2.1

/-! ## The retry wrapper `with_retry` (`src/services/retry.py`)

The wrapped asynchronous operation is modelled by a function from the
invocation index (0-based) to what that invocation does: return a plain
value, return an `httpx.Response`-like object carrying a status code,
raise one of `RETRYABLE_EXCEPTIONS`, or raise any other exception.
`asyncio.sleep` is modelled by counting sleeps, and `time.monotonic()`
values observed at the breaker's `record_failure` calls are supplied by
`ftime`. -/

/-- An `httpx.Response`-like object as far as the wrapper inspects it. -/
structure HttpResponse where
  status_code : Nat
  body : String
deriving Repr, DecidableEq

/-- What the wrapped operation returns when it does not raise. -/
inductive OpReturn (α : Type) where
  | value (v : α)
  | response (r : HttpResponse)
deriving Repr, DecidableEq

/-- What one invocation of the wrapped operation does. -/
inductive OpBehavior (α : Type) where
  | returns (r : OpReturn α)
  | raisesRetryable (e : String)
  | raisesOther (e : String)
deriving Repr, DecidableEq

/-- The wrapper's observable outcome: a normal return, a raised
`MaxRetriesExceededError` (carrying the last retryable exception, if
any), a propagated non-retryable exception, or a raised
`CircuitBreakerOpenError`. -/
inductive WrapperOutcome (α : Type) where
  | ok (r : OpReturn α)
  | maxRetriesExceeded (last_exception : Option String)
  | raised (e : String)
  | circuitBreakerOpen
deriving Repr, DecidableEq

/-- Aggregate observable effects of one wrapped call. -/
structure RunResult (α : Type) where
  outcome : WrapperOutcome α
  invocations : Nat
  sleeps : Nat
  breaker : Option CircuitBreaker
deriving Repr, DecidableEq

/-- `is_retryable_response` from `src/services/retry.py`. -/
def is_retryable_response (r : HttpResponse) (config : RetryConfig) : Bool :=
  config.retryable_status_codes.contains r.status_code

/-- The `for attempt in range(max_attempts)` loop body of `with_retry`'s
`wrapper`, as a recursion on the remaining loop iterations (`remaining`
starts at `max_attempts` with `attempt = 0`, so `attempt + remaining =
max_attempts` throughout).  The `remaining = 0` base case is the final
`raise MaxRetriesExceededError(..., last_exception)` after the loop. -/
def retryLoop (config : RetryConfig) (op : Nat → OpBehavior α) (ftime : Nat → ℚ) :
    Nat → Nat → Option String → Option CircuitBreaker → RunResult α
  | _, 0, last_exception, br =>
    { outcome := .maxRetriesExceeded last_exception, invocations := 0, sleeps := 0,
      breaker := br }
  | attempt, remaining + 1, last_exception, br =>
    match op attempt with
    | .returns r =>
      let retryable := match r with
        | .response resp => is_retryable_response resp config
        | .value _ => false
      if retryable = true ∧ attempt < config.max_attempts - 1 then
        let rest := retryLoop config op ftime (attempt + 1) remaining last_exception br
        { rest with invocations := rest.invocations + 1, sleeps := rest.sleeps + 1 }
      else
        { outcome := .ok r, invocations := 1, sleeps := 0,
          breaker := br.map CircuitBreaker.record_success }
    | .raisesRetryable e =>
      let br2 := br.map (fun b => b.record_failure (ftime attempt))
      if attempt < config.max_attempts - 1 then
        let rest := retryLoop config op ftime (attempt + 1) remaining (some e) br2
        { rest with invocations := rest.invocations + 1, sleeps := rest.sleeps + 1 }
      else
        { outcome := .maxRetriesExceeded (some e), invocations := 1, sleeps := 0,
          breaker := br2 }
    | .raisesOther e =>
      { outcome := .raised e, invocations := 1, sleeps := 0,
        breaker := br.map (fun b => b.record_failure (ftime attempt)) }

/-- `with_retry`'s `wrapper`: the circuit-breaker gate followed by the
retry loop.  `now` is the `time.monotonic()` value at the initial
`can_execute` check. -/
def with_retry_run (config : RetryConfig) (breaker : Option CircuitBreaker)
    (now : ℚ) (ftime : Nat → ℚ) (op : Nat → OpBehavior α) : RunResult α :=
  match breaker with
  | some b =>
    let ce := b.can_execute now
    if ce.1 = false then
      { outcome := .circuitBreakerOpen, invocations := 0, sleeps := 0, breaker := some ce.2 }
    else
      retryLoop config op ftime 0 config.max_attempts none (some ce.2)
  | none => retryLoop config op ftime 0 config.max_attempts none none

/-- If every invocation raises a retryable exception, the loop performs
exactly the remaining iterations and ends with `MaxRetriesExceededError`
carrying the exception of the final attempt. -/
theorem retryLoop_all_retryable {α : Type} (config : RetryConfig) (op : Nat → OpBehavior α)
    (ftime : Nat → ℚ) (errs : Nat → String)
    (hop : ∀ i, op i = .raisesRetryable (errs i)) :
    ∀ remaining attempt last, 1 ≤ remaining →
      attempt + remaining = config.max_attempts →
      (retryLoop config op ftime attempt remaining last none).outcome =
        .maxRetriesExceeded (some (errs (config.max_attempts - 1))) ∧
      (retryLoop config op ftime attempt remaining last none).invocations = remaining := by
  intro remaining
  induction remaining with
  | zero => intro attempt last h1 _; exact absurd h1 (by omega)
  | succ r ih =>
    intro attempt last _ hsum
    rw [retryLoop, hop attempt]
    dsimp only
    cases r with
    | zero =>
      rw [if_neg (by omega)]
      have hlastidx : attempt = config.max_attempts - 1 := by omega
      rw [hlastidx]
      exact ⟨rfl, rfl⟩
    | succ r' =>
      rw [if_pos (by omega)]
      have hrec := ih (attempt + 1) (some (errs attempt)) (by omega) (by omega)
      dsimp only
      simp only [Option.map_none']
      refine ⟨hrec.1, ?_⟩
      rw [hrec.2]

/-- If the first `k` invocations raise retryable exceptions and the
`k`-th returns a plain value, the loop returns that value after
`k + 1 - attempt` further invocations. -/
theorem retryLoop_succeeds {α : Type} (config : RetryConfig) (op : Nat → OpBehavior α)
    (ftime : Nat → ℚ) (errs : Nat → String) (k : Nat) (v : α)
    (hfail : ∀ i, i < k → op i = .raisesRetryable (errs i))
    (hsucc : op k = .returns (.value v)) :
    ∀ remaining attempt last, attempt + remaining = config.max_attempts →
      attempt ≤ k → k < config.max_attempts →
      (retryLoop config op ftime attempt remaining last none).outcome = .ok (.value v) ∧
      (retryLoop config op ftime attempt remaining last none).invocations = k + 1 - attempt := by
  intro remaining
  induction remaining with
  | zero =>
    intro attempt last hsum hak hk
    exact absurd hk (by omega)
  | succ r ih =>
    intro attempt last hsum hak hk
    rcases eq_or_lt_of_le hak with heq | hlt
    · subst heq
      rw [retryLoop, hsucc]
      dsimp only
      rw [if_neg (by simp)]
      refine ⟨rfl, ?_⟩
      dsimp only
      omega
    · rw [retryLoop, hfail attempt hlt]
      dsimp only
      rw [if_pos (by omega)]
      have hrec := ih (attempt + 1) (some (errs attempt)) (by omega) (by omega) hk
      dsimp only
      simp only [Option.map_none']
      refine ⟨hrec.1, ?_⟩
      rw [hrec.2]
      omega

/-- C2: for an operation whose first `k` invocations raise a retryable
exception (timeout, connection error, read/write error): with
`max_attempts ≥ k + 1` and a success on invocation `k`, `with_retry`
returns the value and invokes the operation exactly `k + 1` times; if
every invocation raises a retryable exception, it invokes the operation
exactly `max_attempts` times and raises `MaxRetriesExceededError`
carrying the exception of the last attempt. -/
theorem with_retry_retryable_exception_semantics {α : Type} (config : RetryConfig)
    (op : Nat → OpBehavior α) (ftime : Nat → ℚ) (now : ℚ)
    (errs : Nat → String) (v : α) (k : Nat) :
    ((∀ i, i < k → op i = .raisesRetryable (errs i)) →
      op k = .returns (.value v) → k + 1 ≤ config.max_attempts →
      (with_retry_run config none now ftime op).outcome = .ok (.value v) ∧
      (with_retry_run config none now ftime op).invocations = k + 1) ∧
    ((∀ i, op i = .raisesRetryable (errs i)) → 1 ≤ config.max_attempts →
      (with_retry_run config none now ftime op).outcome =
        .maxRetriesExceeded (some (errs (config.max_attempts - 1))) ∧
      (with_retry_run config none now ftime op).invocations = config.max_attempts) := by
  constructor
  · intro hfail hsucc hm
    have h := retryLoop_succeeds config op ftime errs k v hfail hsucc
      config.max_attempts 0 none (by omega) (by omega) (by omega)
    exact h
  · intro hfail hm
    have h := retryLoop_all_retryable config op ftime errs hfail
      config.max_attempts 0 none hm (by omega)
    exact h

/-- The operation used by the C2 witness: one retryable failure, then a
plain value. -/
def opFailOnce : Nat → OpBehavior Nat := fun i =>
  if i < 1 then .raisesRetryable "ReadTimeout" else .returns (.value 7)

/-- Witness for `with_retry_retryable_exception_semantics`: one timeout
then success, `max_attempts = 3`. -/
theorem with_retry_retryable_exception_semantics_check :
    (with_retry_run
        { max_attempts := 3, initial_delay := 1, backoff_factor := 2, max_delay := 60,
          jitter := false, retryable_status_codes := RETRYABLE_STATUS_CODES }
        none 0 (fun _ => 0) opFailOnce).outcome = .ok (.value 7) ∧
    (with_retry_run
        { max_attempts := 3, initial_delay := 1, backoff_factor := 2, max_delay := 60,
          jitter := false, retryable_status_codes := RETRYABLE_STATUS_CODES }
        none 0 (fun _ => 0) opFailOnce).invocations = 2 :=
  (with_retry_retryable_exception_semantics
      { max_attempts := 3, initial_delay := 1, backoff_factor := 2, max_delay := 60,
        jitter := false, retryable_status_codes := RETRYABLE_STATUS_CODES }
      opFailOnce (fun _ => 0) 0 (fun _ => "ReadTimeout") 7 1).1
    (fun i hi => by
      have h0 : i = 0 := by omega
      rw [h0]
      rfl)
    rfl (by decide)

/-- The operation used to exhibit the C3 divergence: every invocation
returns an HTTP 503 response. -/
def opAlways503 : Nat → OpBehavior Nat := fun _ =>
  .returns (.response { status_code := 503, body := "Service Unavailable" })

/-- C3 (the code evaluated at the failing input): when every invocation
returns a response with retryable status 503 and `max_attempts = 3`, the
wrapper does invoke the operation exactly 3 times with 2 backoff sleeps,
but then *returns the final 503 response through the success path*
(recording success on an attached breaker) instead of raising
`MaxRetriesExceededError` as the spec requires. -/
theorem with_retry_returns_final_retryable_response :
    (with_retry_run
        { max_attempts := 3, initial_delay := 1, backoff_factor := 2, max_delay := 60,
          jitter := false, retryable_status_codes := RETRYABLE_STATUS_CODES }
        none 0 (fun _ => 0) opAlways503).outcome =
      .ok (.response { status_code := 503, body := "Service Unavailable" }) ∧
    (with_retry_run
        { max_attempts := 3, initial_delay := 1, backoff_factor := 2, max_delay := 60,
          jitter := false, retryable_status_codes := RETRYABLE_STATUS_CODES }
        none 0 (fun _ => 0) opAlways503).invocations = 3 ∧
    (with_retry_run
        { max_attempts := 3, initial_delay := 1, backoff_factor := 2, max_delay := 60,
          jitter := false, retryable_status_codes := RETRYABLE_STATUS_CODES }
        none 0 (fun _ => 0) opAlways503).sleeps = 2 := by
  refine ⟨?_, ?_, ?_⟩ <;> rfl

/-- C6: with a circuit breaker attached whose `can_execute` refuses the
call, `with_retry` raises `CircuitBreakerOpenError` without invoking the
operation, without sleeping and without consuming any attempt; moreover
a refusing `can_execute` leaves the breaker unchanged. -/
theorem with_retry_breaker_open_blocks {α : Type} (config : RetryConfig)
    (b : CircuitBreaker) (now : ℚ) (ftime : Nat → ℚ) (op : Nat → OpBehavior α)
    (h : (b.can_execute now).1 = false) :
    with_retry_run config (some b) now ftime op =
      { outcome := .circuitBreakerOpen, invocations := 0, sleeps := 0,
        breaker := some (b.can_execute now).2 } ∧
    (b.can_execute now).2 = b := by
  constructor
  · dsimp only [with_retry_run]
    rw [if_pos h]
  · obtain ⟨cfg, st, fc, sc, lft⟩ := b
    cases st with
    | CLOSED => cases h
    | HALF_OPEN => cases h
    | OPEN =>
      cases lft with
      | none => rfl
      | some t =>
        by_cases hcond : t ≠ 0 ∧ cfg.timeout ≤ now - t
        · exfalso
          have hce : (⟨cfg, .OPEN, fc, sc, some t⟩ : CircuitBreaker).can_execute now =
              (true, ⟨cfg, .HALF_OPEN, fc, 0, some t⟩) := by
            dsimp only [CircuitBreaker.can_execute]
            rw [if_pos hcond]
          rw [hce] at h
          cases h
        · have hce : (⟨cfg, .OPEN, fc, sc, some t⟩ : CircuitBreaker).can_execute now =
              (false, ⟨cfg, .OPEN, fc, sc, some t⟩) := by
            dsimp only [CircuitBreaker.can_execute]
            rw [if_neg hcond]
          rw [hce]

/-- Witness for `with_retry_breaker_open_blocks`: an OPEN breaker whose
timeout has not yet elapsed refuses the call. -/
theorem with_retry_breaker_open_blocks_check :
    with_retry_run RetryConfig.default
        (some ⟨⟨5, 2, 60⟩, .OPEN, 5, 0, some 1⟩) 2 (fun _ => 0)
        (fun _ => OpBehavior.returns (OpReturn.value (0 : Nat))) =
      { outcome := .circuitBreakerOpen, invocations := 0, sleeps := 0,
        breaker := some (CircuitBreaker.can_execute ⟨⟨5, 2, 60⟩, .OPEN, 5, 0, some 1⟩ 2).2 } ∧
    (CircuitBreaker.can_execute ⟨⟨5, 2, 60⟩, .OPEN, 5, 0, some 1⟩ 2).2 =
      ⟨⟨5, 2, 60⟩, .OPEN, 5, 0, some 1⟩ :=
  with_retry_breaker_open_blocks RetryConfig.default
    ⟨⟨5, 2, 60⟩, .OPEN, 5, 0, some 1⟩ 2 (fun _ => 0)
    (fun _ => OpBehavior.returns (OpReturn.value (0 : Nat)))
    (by
      dsimp only [CircuitBreaker.can_execute]
      rw [if_neg (by
        rintro ⟨h1, h2⟩
        norm_num at h2)])

/-! ## Token bucket (`src/services/rate_limiter.py`)

`time.monotonic()` readings are passed in explicitly; the
`await asyncio.sleep(wait_time)` inside `acquire` is modelled by the
`wake` clock reading observed after the sleep, which the scheduler
guarantees satisfies `now + wait_time ≤ wake`. -/

/-- `TokenBucket` state.  `capacity` is an `int` in the source; its value
participates in float arithmetic, so it is embedded as the corresponding
rational. -/
structure TokenBucket where
  rate : ℚ
  capacity : ℚ
  tokens : ℚ
  last_update : ℚ
deriving Repr, DecidableEq

/-- `TokenBucket.__init__`: starts with a full bucket. -/
def TokenBucket.init (rate : ℚ) (capacity : ℚ) (now : ℚ) : TokenBucket :=
  { rate := rate, capacity := capacity, tokens := capacity, last_update := now }

/-- `TokenBucket._add_tokens`. -/
def TokenBucket.add_tokens (b : TokenBucket) (now : ℚ) : TokenBucket :=
  { b with tokens := min b.capacity (b.tokens + (now - b.last_update) * b.rate),
           last_update := now }

/-- The `wait_time` that `TokenBucket.acquire` computes (and returns)
before sleeping: `deficit / rate` when tokens are insufficient, else 0. -/
def TokenBucket.acquire_wait (b : TokenBucket) (n : ℚ) (now : ℚ) : ℚ :=
  let b1 := b.add_tokens now
  if b1.tokens < n then (n - b1.tokens) / b1.rate else 0

/-- `TokenBucket.acquire`: returns `(wait_time, updated bucket)`. -/
def TokenBucket.acquire (b : TokenBucket) (n : ℚ) (now wake : ℚ) : ℚ × TokenBucket :=
  let b1 := b.add_tokens now
  if b1.tokens < n then
    let wait_time := (n - b1.tokens) / b1.rate
    let b2 := b1.add_tokens wake
    (wait_time, { b2 with tokens := b2.tokens - n })
  else
    (0, { b1 with tokens := b1.tokens - n })

/-- The bucket after `i` sequential `acquire(1)` calls on a fresh bucket
with integer capacity `C`, all at the same clock reading `t0` (no time
elapses between calls). -/
def seqAcquire (rate : ℚ) (C : Nat) (t0 : ℚ) : Nat → TokenBucket
  | 0 => TokenBucket.init rate (C : ℚ) t0
  | i + 1 => ((seqAcquire rate C t0 i).acquire 1 t0 t0).2

/-- State of the sequential-acquire bucket: `C - i` tokens remain after
`i` debits, the clock and parameters unchanged. -/
theorem seqAcquire_state (rate : ℚ) (C : Nat) (t0 : ℚ) :
    ∀ i, i ≤ C →
      seqAcquire rate C t0 i =
        { rate := rate, capacity := (C : ℚ), tokens := (C : ℚ) - (i : ℚ),
          last_update := t0 } := by
  intro i
  induction i with
  | zero =>
    intro _
    simp [seqAcquire, TokenBucket.init]
  | succ j ih =>
    intro hle
    have hj : j ≤ C := by omega
    rw [seqAcquire, ih hj]
    dsimp only [TokenBucket.acquire, TokenBucket.add_tokens]
    have hself : t0 - t0 = 0 := by ring
    have htok : (C : ℚ) - (j : ℚ) + (t0 - t0) * rate = (C : ℚ) - (j : ℚ) := by
      rw [hself]; ring
    have hcap : min (C : ℚ) ((C : ℚ) - (j : ℚ) + (t0 - t0) * rate) = (C : ℚ) - (j : ℚ) := by
      rw [htok]
      apply min_eq_right
      have : (0 : ℚ) ≤ (j : ℚ) := by positivity
      linarith
    have hge : ¬ ((C : ℚ) - (j : ℚ) < 1) := by
      have hnat : j + 1 ≤ C := by omega
      have hjC : (j : ℚ) + 1 ≤ (C : ℚ) := by exact_mod_cast hnat
      push_neg
      linarith
    simp only [hcap]
    rw [if_neg hge]
    have : (C : ℚ) - (j : ℚ) - 1 = (C : ℚ) - ((j : ℚ) + 1) := by ring
    rw [this]
    have hcast : ((j + 1 : Nat) : ℚ) = (j : ℚ) + 1 := by push_cast; ring
    rw [hcast]

/-- C7: token-bucket invariants.  First, for any bucket with positive
rate and any `acquire(n)` with `1 ≤ n ≤ capacity` where the post-sleep
clock reading satisfies the requested sleep (`now + wait_time ≤ wake`),
the resulting token balance stays within `[0, capacity]` (the upper
bound needs no hypotheses beyond `0 ≤ n`).  Second, on a fresh bucket of
integer capacity `C ≥ 1` with no time elapsing between calls, the first
`C` `acquire(1)` calls return `wait_time = 0` and the `(C+1)`-th returns
`wait_time > 0`. -/
theorem token_bucket_invariants :
    (∀ (b : TokenBucket) (n now wake : ℚ), 0 < b.rate → 1 ≤ n → n ≤ b.capacity →
      now + b.acquire_wait n now ≤ wake →
      0 ≤ (b.acquire n now wake).2.tokens ∧
      (b.acquire n now wake).2.tokens ≤ b.capacity) ∧
    (∀ (rate t0 : ℚ) (C : Nat), 0 < rate → 1 ≤ C →
      (∀ i, i < C → ((seqAcquire rate C t0 i).acquire 1 t0 t0).1 = 0) ∧
      0 < ((seqAcquire rate C t0 C).acquire 1 t0 t0).1) := by
  constructor
  · intro b n now wake hrate hn1 hncap hwake
    dsimp only [TokenBucket.acquire, TokenBucket.add_tokens]
    set t1 := min b.capacity (b.tokens + (now - b.last_update) * b.rate) with ht1
    by_cases hlt : t1 < n
    · rw [if_pos hlt]
      dsimp only
      have hwait : b.acquire_wait n now = (n - t1) / b.rate := by
        dsimp only [TokenBucket.acquire_wait, TokenBucket.add_tokens]
        rw [← ht1, if_pos hlt]
      rw [hwait] at hwake
      have hdiv : n - t1 ≤ (wake - now) * b.rate := by
        have h1 : (n - t1) / b.rate ≤ wake - now := by linarith
        calc n - t1 = ((n - t1) / b.rate) * b.rate := by
              field_simp
          _ ≤ (wake - now) * b.rate := by
              apply mul_le_mul_of_nonneg_right h1 (le_of_lt hrate)
      constructor
      · have hlo : n ≤ t1 + (wake - now) * b.rate := by linarith
        have : n ≤ min b.capacity (t1 + (wake - now) * b.rate) := le_min hncap hlo
        linarith [this]
      · have : min b.capacity (t1 + (wake - now) * b.rate) ≤ b.capacity := min_le_left _ _
        linarith
    · rw [if_neg hlt]
      dsimp only
      push_neg at hlt
      constructor
      · linarith
      · have : t1 ≤ b.capacity := min_le_left _ _
        linarith
  · intro rate t0 C hrate hC
    constructor
    · intro i hiC
      rw [seqAcquire_state rate C t0 i (by omega)]
      dsimp only [TokenBucket.acquire, TokenBucket.add_tokens]
      have htok : (C : ℚ) - (i : ℚ) + (t0 - t0) * rate = (C : ℚ) - (i : ℚ) := by ring
      have hcap : min (C : ℚ) ((C : ℚ) - (i : ℚ) + (t0 - t0) * rate) = (C : ℚ) - (i : ℚ) := by
        rw [htok]
        apply min_eq_right
        have : (0 : ℚ) ≤ (i : ℚ) := by positivity
        linarith
      simp only [hcap]
      rw [if_neg ?hge]
      case hge =>
        have hnat : i + 1 ≤ C := by omega
        have hiC' : (i : ℚ) + 1 ≤ (C : ℚ) := by exact_mod_cast hnat
        push_neg
        linarith
    · rw [seqAcquire_state rate C t0 C (le_refl C)]
      dsimp only [TokenBucket.acquire, TokenBucket.add_tokens]
      have htok : (C : ℚ) - (C : ℚ) + (t0 - t0) * rate = 0 := by ring
      have hcap : min (C : ℚ) ((C : ℚ) - (C : ℚ) + (t0 - t0) * rate) = 0 := by
        rw [htok]
        apply min_eq_right
        positivity
      simp only [hcap]
      rw [if_pos (by norm_num)]
      dsimp only
      have : (1 : ℚ) - 0 = 1 := by ring
      rw [this]
      positivity

/-- Witness for `token_bucket_invariants`: a bucket with `rate = 2`,
`capacity = 5`, acquiring 1 token with no waiting needed, and the
five-then-wait scenario at `C = 5`. -/
theorem token_bucket_invariants_check :
    (0 ≤ ((TokenBucket.init 2 5 0).acquire 1 0 0).2.tokens ∧
      ((TokenBucket.init 2 5 0).acquire 1 0 0).2.tokens ≤ (TokenBucket.init 2 5 0).capacity) ∧
    ((seqAcquire 2 5 0 0).acquire 1 0 0).1 = 0 ∧
    0 < ((seqAcquire 2 5 0 5).acquire 1 0 0).1 :=
  ⟨(token_bucket_invariants.1 (TokenBucket.init 2 5 0) 1 0 0
      (by norm_num [TokenBucket.init]) (by norm_num)
      (by norm_num [TokenBucket.init]) (by
        have h : (TokenBucket.init 2 5 0).acquire_wait 1 0 = 0 := by
          dsimp only [TokenBucket.acquire_wait, TokenBucket.add_tokens, TokenBucket.init]
          rw [if_neg (by norm_num)]
        rw [h]
        norm_num)),
   (token_bucket_invariants.2 2 0 5 (by norm_num) (by norm_num)).1 0 (by norm_num),
   (token_bucket_invariants.2 2 0 5 (by norm_num) (by norm_num)).2⟩

/-! ## Refresh orchestrator (`src/services/refresher.py`) -/

/-- `RefreshStatus` enum. -/
inductive RefreshStatus where
  | PENDING
  | RUNNING
  | SUCCESS
  | FAILED
  | SKIPPED
deriving Repr, DecidableEq

/-- `SourceRefreshResult` model (the `started_at` / `completed_at` /
`duration_seconds` timestamp fields are not modelled). -/
structure SourceRefreshResult where
  source : String
  status : RefreshStatus
  items_fetched : Nat
  items_parsed : Nat
  errors : List String
deriving Repr, DecidableEq

/-- Abstraction of one source's refresh body — the code inside the `try:`
of `refresh_publications` / `refresh_skolenkaten` / `refresh_tillstand` /
`refresh_tillsyn` / `refresh_kolada` (which calls out-of-scope fetchers
and parsers): either it completes, yielding the fetched and parsed counts
and the per-file errors collected along the way, or it raises an
exception after having set some partial counts and collected some
errors. -/
inductive SourceBody where
  | completes (items_fetched items_parsed : Nat) (collected_errors : List String)
  | raises (items_fetched items_parsed : Nat) (collected_errors : List String)
      (message : String)
deriving Repr, DecidableEq

/-- The per-source `try/except Exception` wrapper shared by every
`refresh_*` method: an exception makes that source's status FAILED and
appends `str(e)` to the errors already collected; otherwise the status is
SUCCESS. -/
def runSourceRefresh (name : String) (body : SourceBody) : SourceRefreshResult :=
  match body with
  | .completes f p errs =>
    { source := name, status := .SUCCESS, items_fetched := f, items_parsed := p,
      errors := errs }
  | .raises f p errs e =>
    { source := name, status := .FAILED, items_fetched := f, items_parsed := p,
      errors := errs ++ [e] }

/-- `RefreshResult` model.  `result.sources` is a Python dict filled in
loop order with keys distinct per iteration; it is modelled as an
association list in insertion order.  Timestamps are not modelled. -/
structure RefreshResult where
  sources : List (String × SourceRefreshResult)
  total_items : Nat
  total_errors : Nat
  success : Bool
deriving Repr, DecidableEq

/-- `all_sources` from `DataRefresher.refresh_all` (also the key set of
its `refresh_methods` dict). -/
def all_sources : List String :=
  ["publications", "skolenkaten", "tillstand", "tillsyn", "kolada"]

/-- The body of `refresh_all`'s `for source in sources_to_refresh:` loop:
a requested name absent from `refresh_methods` is skipped silently. -/
def refreshStep (bodies : String → SourceBody) (acc : RefreshResult)
    (source : String) : RefreshResult :=
  if source ∈ all_sources then
    let source_result := runSourceRefresh source (bodies source)
    { acc with
      sources := acc.sources ++ [(source, source_result)],
      total_items := acc.total_items + source_result.items_parsed,
      total_errors := acc.total_errors + source_result.errors.length }
  else
    acc

/-- `DataRefresher.refresh_all` (the per-run aggregation; the
`RefreshState` file bookkeeping after the loop is not modelled).  Each
source's behaviour is supplied by `bodies`.  Python's
`sources or all_sources` makes both `None` and an empty list select every
source.  After the loop, `success = (len(failed_sources) == 0)`. -/
def refresh_all (bodies : String → SourceBody)
    (sources : Option (List String)) : RefreshResult :=
  let sources_to_refresh := match sources with
    | none => all_sources
    | some [] => all_sources
    | some l => l
  let looped := sources_to_refresh.foldl (refreshStep bodies)
    { sources := [], total_items := 0, total_errors := 0, success := false }
  let failed_sources := looped.sources.filter
    (fun p => decide (p.2.status = RefreshStatus.FAILED))
  { looped with success := decide (failed_sources.length = 0) }

/-- Loop characterization: over known sources, the loop appends one
result per requested source, in order. -/
theorem refreshFold_sources (bodies : String → SourceBody) :
    ∀ (reqs : List String) (acc : RefreshResult),
      (∀ s, s ∈ reqs → s ∈ all_sources) →
      (reqs.foldl (refreshStep bodies) acc).sources =
        acc.sources ++ reqs.map (fun s => (s, runSourceRefresh s (bodies s))) := by
  intro reqs
  induction reqs with
  | nil =>
    intro acc _
    simp
  | cons a rest ih =>
    intro acc hsub
    have ha : a ∈ all_sources := hsub a (List.mem_cons_self a rest)
    rw [List.foldl_cons,
      ih (refreshStep bodies acc a) (fun s hs => hsub s (List.mem_cons_of_mem a hs))]
    dsimp only [refreshStep]
    rw [if_pos ha]
    simp

/-- Association-list lookup over a keyed map of a function. -/
theorem lookup_map_self {β : Type} (f : String → β) :
    ∀ (l : List String) (s : String), s ∈ l →
      (l.map (fun x => (x, f x))).lookup s = some (f s) := by
  intro l
  induction l with
  | nil =>
    intro s hs
    cases hs
  | cons a rest ih =>
    intro s hs
    by_cases heq : s = a
    · subst heq
      simp [List.lookup]
    · rcases List.mem_cons.mp hs with h | h
      · exact absurd h heq
      · simp only [List.map_cons, List.lookup]
        have hba : (s == a) = false := beq_eq_false_iff_ne.mpr heq
        rw [hba]
        exact ih s h

/-- `refresh_all` reports overall success exactly when no requested
source reported FAILED. -/
theorem refresh_all_success_iff (bodies : String → SourceBody)
    (sources : Option (List String)) :
    (refresh_all bodies sources).success = true ↔
      ∀ p ∈ (refresh_all bodies sources).sources,
        p.2.status ≠ RefreshStatus.FAILED := by
  dsimp only [refresh_all]
  rw [decide_eq_true_iff, List.length_eq_zero, List.filter_eq_nil]
  constructor
  · intro h p hp
    have := h p hp
    simpa using this
  · intro h p hp
    simpa using h p hp

/-- C9: a run over requested known sources in which exactly one source's
body raises: `refresh_all` completes and returns a `RefreshResult` in
which the failing source is FAILED with the exception message appended to
its collected errors, every other requested source still executes and
reports its own (SUCCESS) result, overall `success` is false, and in
general `success` is true exactly when no source reports FAILED. -/
theorem refresh_all_isolates_failure (bodies : String → SourceBody)
    (reqs : List String) (s0 : String)
    (hmem : s0 ∈ reqs) (hsub : ∀ s, s ∈ reqs → s ∈ all_sources)
    (f0 p0 : Nat) (pre : List String) (emsg : String)
    (hfail : bodies s0 = .raises f0 p0 pre emsg)
    (hok : ∀ s, s ∈ reqs → s ≠ s0 → ∃ f p errs, bodies s = .completes f p errs) :
    (refresh_all bodies (some reqs)).sources.lookup s0 =
      some { source := s0, status := .FAILED, items_fetched := f0, items_parsed := p0,
             errors := pre ++ [emsg] } ∧
    (∀ s, s ∈ reqs → s ≠ s0 →
      (refresh_all bodies (some reqs)).sources.lookup s =
        some (runSourceRefresh s (bodies s)) ∧
      (runSourceRefresh s (bodies s)).status = .SUCCESS) ∧
    (refresh_all bodies (some reqs)).success = false ∧
    ((refresh_all bodies (some reqs)).success = true ↔
      ∀ p ∈ (refresh_all bodies (some reqs)).sources,
        p.2.status ≠ RefreshStatus.FAILED) := by
  obtain ⟨a, rest, rfl⟩ : ∃ a rest, reqs = a :: rest := by
    cases reqs with
    | nil => cases hmem
    | cons a rest => exact ⟨a, rest, rfl⟩
  have hsources : (refresh_all bodies (some (a :: rest))).sources =
      (a :: rest).map (fun s => (s, runSourceRefresh s (bodies s))) := by
    dsimp only [refresh_all]
    rw [refreshFold_sources bodies (a :: rest) _ hsub]
    simp
  refine ⟨?_, ?_, ?_, refresh_all_success_iff bodies (some (a :: rest))⟩
  · rw [hsources, lookup_map_self _ _ _ hmem, hfail]
    rfl
  · intro s hs hne
    refine ⟨by rw [hsources, lookup_map_self _ _ _ hs], ?_⟩
    obtain ⟨f, p, errs, hb⟩ := hok s hs hne
    rw [hb]
    rfl
  · have hfmem : (s0, runSourceRefresh s0 (bodies s0)) ∈
        (refresh_all bodies (some (a :: rest))).sources := by
      rw [hsources]
      exact List.mem_map.mpr ⟨s0, hmem, rfl⟩
    have hfstat : (runSourceRefresh s0 (bodies s0)).status = RefreshStatus.FAILED := by
      rw [hfail]
      rfl
    cases hsucc : (refresh_all bodies (some (a :: rest))).success with
    | false => rfl
    | true =>
      exfalso
      have hnof := (refresh_all_success_iff bodies (some (a :: rest))).mp hsucc
      exact hnof _ hfmem hfstat

/-- The source behaviours used by the C9 witness: `skolenkaten` raises,
everything else completes cleanly. -/
def bodiesOneFailing : String → SourceBody := fun s =>
  if s = "skolenkaten" then .raises 0 0 [] "boom" else .completes 1 1 []

/-- Witness for `refresh_all_isolates_failure`: three requested sources,
`skolenkaten` raising, yield `success = false`. -/
theorem refresh_all_isolates_failure_check :
    (refresh_all bodiesOneFailing
      (some ["publications", "skolenkaten", "tillstand"])).success = false :=
  (refresh_all_isolates_failure bodiesOneFailing
    ["publications", "skolenkaten", "tillstand"] "skolenkaten"
    (by simp)
    (by intro s hs; fin_cases hs <;> decide)
    0 0 [] "boom" (by decide)
    (by
      intro s hs hne
      fin_cases hs
      · exact ⟨1, 1, [], by decide⟩
      · exact absurd rfl hne
      · exact ⟨1, 1, [], by decide⟩)).2.2.1

end SkolData
